import Mathlib

/-!
# PostConvert — verification of the conversion service against its specification

Shallow embedding of the PostConvert HTTP conversion service
(src/server.js and the hardened iteration in src/unnamed/part_000).
Pure helper functions (`looksLikeHeic`, `isPdfRequest`, `clampInt`,
`parseBool`, `parseResizeOptions`, `pageNum`) are character-identical in
both iterations and are embedded once.  The impure converters (sharp,
libheif, pdftoppm) are passed to the handlers as result oracles.
-/

set_option maxRecDepth 8192

/-- A Node `Buffer`: a list of byte values (each `< 256`). -/
abbrev Buf := List Nat

/-- One byte decoded by Node's `"ascii"` encoding, which masks each byte
to its low 7 bits before interpreting it as a character. -/
def asciiChar (b : Nat) : Char := Char.ofNat (b % 128)

/-- Node `buf.toString("ascii", start, stop)`: bytes `[start, stop)`
(truncated at the buffer length) decoded with the 7-bit mask. -/
def bufAscii (buf : Buf) (start stop : Nat) : String :=
  String.mk (((buf.drop start).take (stop - start)).map asciiChar)

/-- JS `hay.includes(needle)`: substring containment. -/
def strIncludes (hay needle : String) : Bool :=
  (List.range (hay.data.length + 1)).any fun i => needle.data.isPrefixOf (hay.data.drop i)

/-- JS `s.toLowerCase()` on the ASCII header strings the service reads. -/
def strLower (s : String) : String := String.mk (s.data.map Char.toLower)

/-- JS `s.trim()`: strip leading and trailing whitespace. -/
def strTrimJs (s : String) : String :=
  String.mk (((s.data.dropWhile Char.isWhitespace).reverse.dropWhile Char.isWhitespace).reverse)

/-- JS `s.startsWith(p)`. -/
def strStartsWith (s p : String) : Bool := p.data.isPrefixOf s.data

/-- JS `s.endsWith(p)`. -/
def strEndsWith (s p : String) : Bool := p.data.isSuffixOf s.data

/-- The HEIF-family brand substrings scanned for by `looksLikeHeic`
(src/server.js lines 49–58). -/
def heicBrands : List String :=
  [("heic"), ("heif"), ("heix"), ("hevc"), ("hevx"), ("mif1"), ("msf1")]

/-- `looksLikeHeic(buf)` from src/server.js lines 40–59: requires at least
16 bytes, the ASCII literal `ftyp` at bytes `[4:8]`, and one of the brand
substrings in the ASCII decoding of bytes `[8:min(len,256))`. -/
def looksLikeHeic (buf : Buf) : Bool :=
  if buf.length < 16 then false
  else if bufAscii buf 4 8 ≠ "ftyp" then false
  else
    let scanEnd := min buf.length 256
    let brands := bufAscii buf 8 scanEnd
    heicBrands.any fun b => strIncludes brands b

/-- JS `v || d` on an optional header string: `undefined` and the empty
string are falsy and give the default. -/
def jsOrStr (v : Option String) (d : String) : String :=
  match v with
  | none => d
  | some s => if s = "" then d else s

/-- `String(req.headers[h] || "")`. -/
def headerStr (v : Option String) : String := jsOrStr v ("")

/-- The HTTP request surface the handlers read: headers (absent = `none`,
matching JS `undefined`) and the raw body buffer. -/
structure Req where
  contentType : Option String := none
  xFilename : Option String := none
  authorization : Option String := none
  xJpegQuality : Option String := none
  xMaxDimension : Option String := none
  xWidth : Option String := none
  xHeight : Option String := none
  xFit : Option String := none
  xWithoutEnlargement : Option String := none
  xPdfDpi : Option String := none
  xPdfMaxPages : Option String := none
  body : Buf := []

/-- `isPdfRequest(req)` from src/server.js lines 34–38. -/
def isPdfRequest (r : Req) : Bool :=
  let ct := strLower (headerStr r.contentType)
  let fn := strLower (headerStr r.xFilename)
  strStartsWith ct ("application/pdf") || strEndsWith fn (".pdf")

/-- Numeric value of a list of decimal digit characters. -/
def digitsVal (ds : List Char) : Nat :=
  ds.foldl (fun a c => 10 * a + (c.toNat - 48)) 0

/-- The IEEE-754 double overflow threshold `2^1024 - 2^970`: `Number(s)`
is non-finite (±Infinity) exactly when the parsed value's magnitude is
at least this bound (round-to-nearest-even sends the tie up). -/
def jsOverflow : Nat := 2 ^ 1024 - 2 ^ 970

/-- `Math.floor` of `±(nVal × 10^(ex − scale))` as the JS `Number`
pipeline observes it: `0` for a zero mantissa, non-finite (`none`) at or
above the double overflow threshold, `0` when the magnitude underflows
to ±0 (below `10^-324`, using `digCount` — the mantissa's digit count —
to bound the magnitude so the computed powers stay small), else the
exact integer floor.  Caveat: JS floors the nearest double rather than
the exact rational; the two differ only when digits beyond double
precision straddle an integer or the subnormal/overflow boundary, far
outside the 0–20000 ranges the service clamps to. -/
def jsFloorOfParts (neg : Bool) (nVal digCount scale : Nat) (ex : Int) : Option Int :=
  if nVal = 0 then some 0
  else
    let p : Int := ex - scale
    if 400 ≤ p then none
    else if (digCount : Int) + p ≤ -324 then some 0
    else if 0 ≤ p then
      let v := nVal * 10 ^ p.toNat
      if jsOverflow ≤ v then none
      else if neg then some (-(v : Int)) else some ((v : Int))
    else
      let k := (-p).toNat
      if jsOverflow * 10 ^ k ≤ nVal then none
      else
        let q := nVal / 10 ^ k
        if neg then
          if nVal % 10 ^ k = 0 then some (-(q : Int)) else some (-(q : Int) - 1)
        else some ((q : Int))

/-- The exponent part of a scientific numeral: `[+|-] digits`. -/
def expVal? (cs : List Char) : Option Int :=
  match cs with
  | '-' :: u => if !u.isEmpty && u.all Char.isDigit then some (-(digitsVal u : Int)) else none
  | '+' :: u => if !u.isEmpty && u.all Char.isDigit then some ((digitsVal u : Int)) else none
  | u => if !u.isEmpty && u.all Char.isDigit then some ((digitsVal u : Int)) else none

/-- The body of a decimal numeral after the optional sign:
`digits [. digits] [e|E [+|-] digits]` with at least one mantissa digit,
floored via `jsFloorOfParts`. -/
def decCore (neg : Bool) (cs : List Char) : Option Int :=
  let ip := cs.takeWhile Char.isDigit
  let rest1 := cs.dropWhile Char.isDigit
  let fp :=
    match rest1 with
    | '.' :: u => u.takeWhile Char.isDigit
    | _ => []
  let rest2 :=
    match rest1 with
    | '.' :: u => u.dropWhile Char.isDigit
    | _ => rest1
  if ip.isEmpty && fp.isEmpty then none
  else
    let nVal := digitsVal (ip ++ fp)
    let digCount := ip.length + fp.length
    match rest2 with
    | [] => jsFloorOfParts neg nVal digCount fp.length 0
    | e :: t =>
      if e = 'e' ∨ e = 'E' then
        match expVal? t with
        | some ev => jsFloorOfParts neg nVal digCount fp.length ev
        | none => none
      else none

/-- A decimal numeral with its optional sign. -/
def decSigned (cs : List Char) : Option Int :=
  match cs with
  | '-' :: rest => decCore true rest
  | '+' :: rest => decCore false rest
  | _ => decCore false cs

/-- One digit of a hex/octal/binary numeral (JS accepts both cases). -/
def radixDigitVal (radix : Nat) (c : Char) : Option Nat :=
  let v :=
    if c.isDigit then some (c.toNat - 48)
    else if ('a' ≤ c ∧ c ≤ 'z') then some (c.toNat - 87)
    else if ('A' ≤ c ∧ c ≤ 'Z') then some (c.toNat - 55)
    else none
  match v with
  | some d => if d < radix then some d else none
  | none => none

/-- A `0x`/`0o`/`0b` integer numeral (unsigned only, as in JS, where a
signed radix form is NaN); non-finite above the overflow threshold. -/
def radixVal (radix : Nat) (ds : List Char) : Option Int :=
  if ds.isEmpty then none
  else
    match ds.mapM (radixDigitVal radix) with
    | none => none
    | some vs =>
      let v := vs.foldl (fun a d => radix * a + d) 0
      if jsOverflow ≤ v then none else some ((v : Int))

/-- `Math.floor(Number(s))` when `Number(s)` is finite, `none` when it is
NaN or ±Infinity (the two cases `clampInt`'s `Number.isFinite` guard
rejects together).  Covers JS `Number`'s string grammar: a
whitespace-trimmed empty string is `0`; signed decimal and scientific
numerals (`10000.5`, `-2.5`, `1e3`, `.5`, `12.`) take their floored
value; unsigned `0x`/`0o`/`0b` numerals take their integer value;
`Infinity` and overflowing magnitudes are non-finite; anything else is
NaN.  (`Math.floor` is fused in here because `clampInt` applies it
before clamping; the whitespace set is the ASCII subset the service's
headers can carry.) -/
def jsNumOfString (s : String) : Option Int :=
  let t := (strTrimJs s).data
  if t.isEmpty then some 0
  else
    match t with
    | '0' :: c :: rest =>
      if c = 'x' ∨ c = 'X' then radixVal 16 rest
      else if c = 'o' ∨ c = 'O' then radixVal 8 rest
      else if c = 'b' ∨ c = 'B' then radixVal 2 rest
      else decSigned t
    | _ => decSigned t

/-- `Number(value)` on a possibly-absent header: `Number(undefined)` is NaN. -/
def jsNum (v : Option String) : Option Int :=
  match v with
  | none => none
  | some s => jsNumOfString s

/-- `clampInt(value, min, max, fallback)` from src/server.js lines 364–368:
a non-finite `Number(value)` gives the fallback, otherwise
`Math.max(min, Math.min(max, Math.floor(n)))` — `jsNum` already yields
the floored value, so only the two clamps remain here. -/
def clampInt (value : Option String) (lo hi fallback : Int) : Int :=
  match jsNum value with
  | none => fallback
  | some n => max lo (min hi n)

/-- `parseBool(v, fallback)` from src/server.js lines 70–76. -/
def parseBool (v : Option String) (fallback : Bool) : Bool :=
  match v with
  | none => fallback
  | some s =>
    let t := strTrimJs (strLower s)
    if [("1"), ("true"), ("yes"), ("y"), ("on")].contains t then true
    else if [("0"), ("false"), ("no"), ("n"), ("off")].contains t then false
    else fallback

/-- The options struct built by `parseResizeOptions`. -/
structure ResizeOpts where
  quality : Int
  width : Option Int
  height : Option Int
  maxDim : Option Int
  fit : String
  withoutEnlargement : Bool
deriving DecidableEq

/-- JS `n || null` on a clamped integer: `0` is falsy and becomes `null`. -/
def orNull (n : Int) : Option Int := if n = 0 then none else some n

/-- The admissible values of the `x-fit` header (src/server.js line 87). -/
def fitValues : List String :=
  [("inside"), ("cover"), ("contain"), ("fill"), ("outside")]

/-- `parseResizeOptions(req)` from src/server.js lines 78–94. -/
def parseResizeOptions (r : Req) : ResizeOpts :=
  { quality := clampInt r.xJpegQuality 0 100 100
    width := orNull (clampInt r.xWidth 1 20000 0)
    height := orNull (clampInt r.xHeight 1 20000 0)
    maxDim := orNull (clampInt r.xMaxDimension 1 20000 0)
    fit :=
      let fitRaw := strLower (jsOrStr r.xFit ("inside"))
      if fitValues.contains fitRaw then fitRaw else "inside"
    withoutEnlargement := parseBool r.xWithoutEnlargement true }

/-- The header parsing at the top of `app.post("/convert/pdf")`
(src/server.js lines 268–269): the rendering DPI and page cap. -/
def parsePdfLimits (r : Req) : Int × Int :=
  (clampInt r.xPdfDpi 72 600 300, clampInt r.xPdfMaxPages 1 200 50)

/-- Server environment: the configured bearer token (absent = env var unset). -/
structure Env where
  converterToken : Option String := none

/-- The guard condition of `requireAuth` (src/server.js lines 22–30):
`!(!token || auth !== "Bearer " + token)`.  An unset or empty token is
falsy, so the guard fails for every Authorization header. -/
def authOk (env : Env) (r : Req) : Bool :=
  match env.converterToken with
  | none => false
  | some t =>
    if t = "" then false else (jsOrStr r.authorization ("")) == (("Bearer ") ++ t)

/-- A JS `Error` as the handlers observe it: a message and an optional
stack trace (`e.stack`). -/
structure JsError where
  message : String
  stack : Option String := none
deriving DecidableEq

/-- `String(e?.stack || e)` (src/server.js lines 244 and 327): the stack
trace when present and non-empty, else the error's string form. -/
def errText (e : JsError) : String :=
  match e.stack with
  | some s => if s = "" then ("Error: ") ++ e.message else s
  | none => ("Error: ") ++ e.message

/-- The JSON error envelope `{error, message, requestId}` built by
`sendError` in the hardened iteration (src/unnamed/part_000 lines
108–118), kept structured: its serialization mentions exactly these
three fields. -/
structure ErrorEnvelope where
  error : String
  message : String
  requestId : String
deriving DecidableEq

/-- What a handler writes to the response: plain text, a JPEG buffer,
a JSON error envelope, a streamed ZIP archive, or nothing. -/
inductive RespBody where
  | text (s : String)
  | jpeg (bytes : Buf)
  | json (e : ErrorEnvelope)
  | zipStream
  | nothing
deriving DecidableEq

/-- An HTTP response: status code and body. -/
structure Response where
  status : Nat
  body : RespBody
deriving DecidableEq

/-- Which converter a `/convert` request is routed to. -/
inductive ConvPath where
  | noConversion
  | pdf
  | sharpOnly
  | wasm
deriving DecidableEq

/-- The branch structure of `app.post("/convert")` in src/server.js
(lines 210–246).  The impure converters are oracles: `pdfRes` is the
result of `pdfFirstPageToJpeg`, `sharpRes` of `toJpegWithSharp`,
`wasmRes` of `heicToJpegWithWasm`; a thrown error reaching the outer
catch is sent as `String(e?.stack || e)` with status 500 (line 244). -/
def ServerJs.convert (env : Env) (r : Req)
    (pdfRes sharpRes wasmRes : Except JsError Buf) : Response :=
  if ¬ authOk env r then { status := 401, body := .text ("Unauthorized") }
  else if r.body = [] then { status := 400, body := .text ("Empty body") }
  else if isPdfRequest r then
    match pdfRes with
    | .ok jpeg => { status := 200, body := .jpeg jpeg }
    | .error e => { status := 500, body := .text (errText e) }
  else
    match sharpRes with
    | .ok jpeg => { status := 200, body := .jpeg jpeg }
    | .error sharpErr =>
      if looksLikeHeic r.body then
        match wasmRes with
        | .ok jpeg => { status := 200, body := .jpeg jpeg }
        | .error e => { status := 500, body := .text (errText e) }
      else { status := 500, body := .text (errText sharpErr) }

/-- The routing decision of `app.post("/convert")` (same branch order as
`ServerJs.convert`): which conversion backend ends up processing the
request, given whether the sharp fast path throws. -/
def ServerJs.convertPath (env : Env) (r : Req) (sharpFails : Bool) : ConvPath :=
  if ¬ authOk env r then .noConversion
  else if r.body = [] then .noConversion
  else if isPdfRequest r then .pdf
  else if sharpFails then
    (if looksLikeHeic r.body then .wasm else .sharpOnly)
  else .sharpOnly

/-- The characters of the literal `page-` (the head of the rendered-page
filename pattern `/^page-\d+\.jpg$/i`). -/
def pageHead : List Char := [('p'), ('a'), ('g'), ('e'), ('-')]

/-- The characters of the literal `.jpg` (the tail of the pattern). -/
def jpgTail : List Char := [('.'), ('j'), ('p'), ('g')]

/-- The filter regex `/^page-\d+\.jpg$/i` of src/server.js line 278:
after case folding, the whole name is `page-`, one or more digits,
`.jpg`. -/
def matchesPagePattern (s : String) : Bool :=
  let cs := s.data.map Char.toLower
  let mid := (cs.drop 5).take (cs.length - 9)
  pageHead.isPrefixOf cs && jpgTail.isSuffixOf cs && !mid.isEmpty && mid.all Char.isDigit

/-- `pageNum(filename)` from src/server.js lines 359–362: the number
embedded in a `page-<n>.jpg` name, `0` when the pattern does not match.
(The source regex is unanchored; the two agree on every name that passed
the anchored filter, which is the only place `pageNum` is applied.) -/
def pageNum (s : String) : Nat :=
  let cs := s.data.map Char.toLower
  if matchesPagePattern s then digitsVal ((cs.drop 5).take (cs.length - 9)) else 0

/-- The comparator `(a, b) => pageNum(a) - pageNum(b)` of line 279 as the
ordering relation it sorts by. -/
def pageLe (a b : String) : Prop := pageNum a ≤ pageNum b

instance : DecidableRel pageLe := fun a b => Nat.decLe (pageNum a) (pageNum b)

instance : IsTotal String pageLe := ⟨fun a b => Nat.le_total (pageNum a) (pageNum b)⟩

instance : IsTrans String pageLe := ⟨fun _ _ _ h h' => Nat.le_trans h h'⟩

/-- Lines 277–279 of src/server.js: the directory listing filtered to the
page pattern and stably sorted by embedded page number (JS `sort` with a
consistent comparator; embedded as insertion sort, which is stable and
sorts by the same relation). -/
def sortPages (names : List String) : List String :=
  List.insertionSort pageLe (names.filter matchesPagePattern)

/-- JS `s.padStart(n, c)`: left-pad to length `n` (no-op when already
long enough). -/
def padStart (s : String) (n : Nat) (c : Char) : String :=
  String.mk (List.replicate (n - s.length) c) ++ s

/-- The archive entry name for the `k`-th page (1-based):
`String(i + 1).padStart(3, "0")` plus `.jpg` (src/server.js lines
315 and 321). -/
def entryName (k : Nat) : String :=
  padStart (toString k) 3 ('0') ++ (".jpg")

/-- One observable event of the page re-encoding loop of
`app.post("/convert/pdf")` (src/unnamed/part_000 lines 460–473):
an `isAborted` poll (with its observation index and result), a page file
being read and re-encoded through `toJpegWithSharp`, or an archive
append. -/
inductive PageEvent where
  | checkAbort (i : Nat) (result : Bool)
  | readEncode (file : String)
  | appendEntry (name : String)
deriving DecidableEq

/-- The page loop of src/unnamed/part_000 lines 460–473 as an event
trace.  `abort` is the `isAborted(req, res)` oracle indexed by
observation number, `k` the 1-based entry counter, `c` the next
observation index.  Each iteration polls before reading (`break` on
abort), reads and re-encodes the page, polls again, then appends the
entry.  Returns the trace and the next observation index. -/
def pageLoop (abort : Nat → Bool) : List String → Nat → Nat → List PageEvent × Nat
  | [], _, c => ([], c)
  | f :: fs, k, c =>
    if abort c then ([.checkAbort c true], c + 1)
    else if abort (c + 1) then
      ([.checkAbort c false, .readEncode f, .checkAbort (c + 1) true], c + 2)
    else
      let rest := pageLoop abort fs (k + 1) (c + 2)
      (.checkAbort c false :: .readEncode f :: .checkAbort (c + 1) false ::
        .appendEntry (entryName k) :: rest.1, rest.2)

/-- The page files read and re-encoded in a trace. -/
def encodedOf (tr : List PageEvent) : List String :=
  tr.filterMap fun e =>
    match e with
    | .readEncode f => some f
    | _ => none

/-- The archive entry names appended in a trace. -/
def entriesOf (tr : List PageEvent) : List String :=
  tr.filterMap fun e =>
    match e with
    | .appendEntry n => some n
    | _ => none

/-- The observable outcome of one `/convert/pdf` request in the hardened
iteration: the response, the loop trace, whether `archive.finalize()`
ran, and whether the `finally` cleanup (unlink of the PDF file and
recursive removal of the pages directory) ran. -/
structure PdfRunResult where
  response : Response
  events : List PageEvent
  finalized : Bool
  cleanedUp : Bool
deriving DecidableEq

/-- `app.post("/convert/pdf")` from src/unnamed/part_000 lines 377–501.
Oracles: `rendered` is the directory listing produced by `pdftoppm`,
`abort` the `isAborted` observations (index 0 is the check after auth,
index 1 the one after the PDF file is written, the loop polls from
index 2 on, and the final index guards `archive.finalize()`).  The
`finally` clause (lines 497–500) is the outer wrapper setting
`cleanedUp` on every exit path.  File reads and `toJpegWithSharp`
re-encodes are assumed to succeed (their failure takes the generic
catch, which also runs the `finally`). -/
def Hardened.convertPdf (env : Env) (r : Req) (reqId : String)
    (rendered : List String) (abort : Nat → Bool) : PdfRunResult :=
  let halt : Response → PdfRunResult := fun resp =>
    { response := resp, events := [], finalized := false, cleanedUp := true }
  if ¬ authOk env r then
    halt { status := 401, body := .json ⟨("unauthorized"), ("Unauthorized"), reqId⟩ }
  else if abort 0 then
    halt { status := 0, body := .nothing }
  else if r.body = [] then
    halt { status := 400, body := .json ⟨("empty_body"), ("Empty body"), reqId⟩ }
  else if ¬ isPdfRequest r then
    halt { status := 415,
           body := .json ⟨("unsupported_media_type"), ("This endpoint only accepts PDFs"), reqId⟩ }
  else
    let maxPages := (parsePdfLimits r).2
    if abort 1 then halt { status := 0, body := .nothing }
    else
      let files := sortPages rendered
      if files.isEmpty then
        halt { status := 500,
               body := .json ⟨("pdf_render_failed"), ("PDF render produced no pages"), reqId⟩ }
      else if maxPages < (files.length : Int) then
        halt { status := 413,
               body := .json ⟨("pdf_too_many_pages"),
                 ("PDF has ") ++ toString files.length ++ (" pages; exceeds maxPages=")
                   ++ toString maxPages, reqId⟩ }
      else
        let run := pageLoop abort files 1 2
        { response := { status := 200, body := .zipStream }
          events := run.1
          finalized := !abort run.2
          cleanedUp := true }

/-- Modelled from the spec: the Admission Controller of §4.5 is absent
from src/ (no iteration under src/ contains it; only the spec describes
it).  A single counted resource: `cap` the configured capacity,
`holders` the number of held job slots. -/
structure Admission where
  cap : Nat
  holders : Nat
deriving DecidableEq

/-- Modelled from the spec: `acquire` succeeds immediately if current
holders < capacity, else fails instantly (never queues or blocks)
signaling a busy condition. -/
def Admission.acquire (a : Admission) : Bool × Admission :=
  if a.holders < a.cap then (true, { a with holders := a.holders + 1 })
  else (false, a)

/-- Modelled from the spec: `release` is unconditional, exactly once per
successful acquire. -/
def Admission.release (a : Admission) : Admission :=
  { a with holders := a.holders - 1 }

/-- Modelled from the spec: the single-image `/convert` path guarded by
the admission controller — on a failed acquire the request is rejected
at once with 429/busy and a retry hint; on success the conversion runs
and the slot is released unconditionally afterwards. -/
def Admission.guardConvert (a : Admission) (work : Response) : Response × Admission :=
  let acq := a.acquire
  if acq.1 then (work, (acq.2).release)
  else ({ status := 429, body := .json ⟨("busy"), ("Busy, retry shortly"), ("")⟩ }, acq.2)

/-- Modelled from the spec: the states of the admission counter reachable
from the idle state by its atomic acquire/release contract (a release
only pairs with a previously successful acquire, so it only fires from a
state with at least one holder). -/
inductive Admission.Reachable (cap : Nat) : Nat → Prop where
  | init : Admission.Reachable cap 0
  | acq {h : Nat} (prev : Admission.Reachable cap h)
      (ok : (Admission.acquire ⟨cap, h⟩).1 = true) :
      Admission.Reachable cap ((Admission.acquire ⟨cap, h⟩).2.holders)
  | rel {h : Nat} (prev : Admission.Reachable cap h) (pos : 0 < h) :
      Admission.Reachable cap ((Admission.release ⟨cap, h⟩).holders)

/-- Strict lexicographic order on character lists (char-by-char, shorter
prefix first), used to state "lexical order of archive entry names". -/
def charsLt : List Char → List Char → Bool
  | [], [] => false
  | [], _ :: _ => true
  | _ :: _, [] => false
  | a :: as, b :: bs => if a < b then true else if b < a then false else charsLt as bs

/-- Strict lexicographic order on strings. -/
def strLt (a b : String) : Bool := charsLt a.data b.data

/-- `strLt` as a relation. -/
def strLtP (a b : String) : Prop := strLt a b = true

instance : DecidableRel strLtP := fun a b => instDecidableEqBool (strLt a b) true

theorem charsLt_trans :
    ∀ {x y z : List Char}, charsLt x y = true → charsLt y z = true → charsLt x z = true := by
  intro x
  induction x with
  | nil =>
    intro y z hxy hyz
    cases y with
    | nil => cases hxy
    | cons b bs =>
      cases z with
      | nil => cases hyz
      | cons c cs => rfl
  | cons a as ih =>
    intro y z hxy hyz
    cases y with
    | nil => cases hxy
    | cons b bs =>
      cases z with
      | nil => cases hyz
      | cons c cs =>
        simp only [charsLt] at hxy hyz ⊢
        by_cases hab : a < b
        · by_cases hbc : b < c
          · simp [lt_trans hab hbc]
          · by_cases hcb : c < b
            · simp [hbc, hcb] at hyz
            · have hbc' : b = c := le_antisymm (not_lt.mp hcb) (not_lt.mp hbc)
              simp [hbc' ▸ hab]
        · by_cases hba : b < a
          · simp [hab, hba] at hxy
          · have hab' : a = b := le_antisymm (not_lt.mp hba) (not_lt.mp hab)
            subst hab'
            by_cases hbc : a < c
            · simp [hbc]
            · by_cases hcb : c < a
              · simp [hbc, hcb] at hyz
              · simp [hbc, hcb] at hxy hyz ⊢
                exact ih hxy hyz

instance : IsTrans String strLtP :=
  ⟨fun _ _ _ h h' => charsLt_trans h h'⟩

/-- C9: `looksLikeHeic` is a pure function of the buffer that returns
`true` if and only if the buffer is at least 16 bytes long, bytes `[4:8]`
decoded as ASCII equal `ftyp`, and the ASCII decoding of bytes
`[8:min(length,256))` contains at least one of the brand substrings
`heic`, `heif`, `heix`, `hevc`, `hevx`, `mif1`, `msf1`. -/
theorem looksLikeHeic_characterization (buf : Buf) :
    looksLikeHeic buf = true ↔
      16 ≤ buf.length ∧ bufAscii buf 4 8 = ("ftyp") ∧
        ∃ b ∈ heicBrands,
          strIncludes (bufAscii buf 8 (min buf.length 256)) b = true := by
  unfold looksLikeHeic
  by_cases h1 : buf.length < 16
  · simp only [if_pos h1]
    constructor
    · intro h; cases h
    · rintro ⟨h16, -, -⟩; omega
  · have h16 : 16 ≤ buf.length := by omega
    by_cases h2 : bufAscii buf 4 8 = ("ftyp")
    · simp [h1, h2, h16, List.any_eq_true]
    · simp [h1, h2]

/-- C10: authentication fails closed — with the CONVERTER_TOKEN
environment variable unset or empty, every `/convert` and `/convert/pdf`
request gets status 401 for every possible Authorization header value,
and no conversion work is performed (no converter is routed to, and the
`/convert/pdf` loop produces no events). -/
theorem auth_fails_closed (env : Env) (r : Req)
    (h : env.converterToken = none ∨ env.converterToken = some ("")) :
    authOk env r = false
    ∧ (∀ pdfRes sharpRes wasmRes,
        (ServerJs.convert env r pdfRes sharpRes wasmRes).status = 401)
    ∧ (∀ sharpFails, ServerJs.convertPath env r sharpFails = ConvPath.noConversion)
    ∧ (∀ reqId rendered abort,
        (Hardened.convertPdf env r reqId rendered abort).response.status = 401
        ∧ (Hardened.convertPdf env r reqId rendered abort).events = []) := by
  have hA : authOk env r = false := by
    rcases h with h | h <;> simp [authOk, h]
  refine ⟨hA, ?_, ?_, ?_⟩
  · intro pdfRes sharpRes wasmRes
    simp [ServerJs.convert, hA]
  · intro sharpFails
    simp [ServerJs.convertPath, hA]
  · intro reqId rendered abort
    constructor <;> simp [Hardened.convertPdf, hA]

/-- Witness for C10 at a concrete unset token and a concrete bearer
header. -/
theorem auth_fails_closed_witness :
    (ServerJs.convert { converterToken := none }
        { authorization := some ("Bearer secret"), body := [1] }
        (Except.ok []) (Except.ok []) (Except.ok [])).status = 401
    ∧ (Hardened.convertPdf { converterToken := none }
        { authorization := some ("Bearer secret"), body := [1] }
        ("r1") [] (fun _ => false)).response.status = 401 :=
  ⟨(auth_fails_closed { converterToken := none }
      { authorization := some ("Bearer secret"), body := [1] }
      (Or.inl rfl)).2.1 (Except.ok []) (Except.ok []) (Except.ok []),
   ((auth_fails_closed { converterToken := none }
      { authorization := some ("Bearer secret"), body := [1] }
      (Or.inl rfl)).2.2.2 ("r1") [] (fun _ => false)).1⟩

theorem admission_reachable_le (cap : Nat) :
    ∀ {h : Nat}, Admission.Reachable cap h → h ≤ cap := by
  intro h hr
  induction hr with
  | init => exact Nat.zero_le _
  | @acq h' prev ok ih =>
    simp only [Admission.acquire] at ok ⊢
    by_cases hlt : h' < cap
    · simp only [if_pos hlt] at ok ⊢
      simpa using hlt
    · simp only [if_neg hlt] at ok
      cases ok
  | rel prev pos ih =>
    unfold Admission.release
    exact Nat.le_trans (Nat.sub_le _ _) ih

/-- C1: in every reachable state of the admission controller the number
of held job slots never exceeds the configured capacity; a `/convert`
request arriving while holders equal capacity is rejected instantly with
429/busy and an unchanged counter (never queued or blocked), and a
request arriving while a slot is free runs and releases its slot. -/
theorem admission_controller_safe (cap h : Nat) (hr : Admission.Reachable cap h) :
    h ≤ cap
    ∧ (h = cap → ∀ work, Admission.guardConvert ⟨cap, h⟩ work
        = ({ status := 429, body := .json ⟨("busy"), ("Busy, retry shortly"), ("")⟩ },
           ⟨cap, h⟩))
    ∧ (h < cap → ∀ work, Admission.guardConvert ⟨cap, h⟩ work = (work, ⟨cap, h⟩)) := by
  refine ⟨admission_reachable_le cap hr, ?_, ?_⟩
  · intro heq work
    subst heq
    simp [Admission.guardConvert, Admission.acquire]
  · intro hlt work
    simp [Admission.guardConvert, Admission.acquire, Admission.release, hlt]

/-- Witness for C1: capacity 1, with the single slot held (state reached
by one successful acquire). -/
theorem admission_controller_safe_witness :
    1 ≤ 1
    ∧ (1 = 1 → ∀ work, Admission.guardConvert ⟨1, 1⟩ work
        = ({ status := 429, body := .json ⟨("busy"), ("Busy, retry shortly"), ("")⟩ },
           ⟨1, 1⟩))
    ∧ (1 < 1 → ∀ work, Admission.guardConvert ⟨1, 1⟩ work = (work, ⟨1, 1⟩)) :=
  admission_controller_safe 1 1
    (Admission.Reachable.acq Admission.Reachable.init (by decide))

/-- A concrete 16-byte buffer with an ftyp box and the `heic` brand:
4 size bytes, `ftyp`, `heic`, 4 padding bytes. -/
def heicBuf : Buf := [0, 0, 0, 24, 102, 116, 121, 112, 104, 101, 105, 99, 0, 0, 0, 0]

/-- A concrete deployment environment used by the witnesses. -/
def exEnv : Env := { converterToken := some ("secret") }

/-- A matching Authorization header for `exEnv`. -/
def exAuth : Option String := some ("Bearer secret")

/-- C8: on a non-PDF `/convert` request whose sharp decode throws, a
HEIC-signatured buffer is silently retried through the WASM HEIF decoder
(the response is exactly the one the WASM result determines, success iff
that decode succeeds), and a buffer without the HEIC signature has the
original sharp error propagate to the boundary unchanged. -/
theorem sharp_failure_fallback (env : Env) (r : Req)
    (pdfRes wasmRes : Except JsError Buf) (sharpErr : JsError)
    (hauth : authOk env r = true) (hbody : r.body ≠ [])
    (hpdf : isPdfRequest r = false) :
    (looksLikeHeic r.body = true →
      ServerJs.convert env r pdfRes (Except.error sharpErr) wasmRes
        = match wasmRes with
          | Except.ok jpeg => { status := 200, body := .jpeg jpeg }
          | Except.error e => { status := 500, body := .text (errText e) })
    ∧ (looksLikeHeic r.body = false →
      ServerJs.convert env r pdfRes (Except.error sharpErr) wasmRes
        = { status := 500, body := .text (errText sharpErr) }) := by
  constructor <;> intro hh
  · simp only [ServerJs.convert, hauth, hbody, hpdf, hh]
    simp
  · simp only [ServerJs.convert, hauth, hbody, hpdf, hh]
    simp

/-- Witness for C8: a non-HEIC three-byte body whose sharp failure
propagates as the original error. -/
theorem sharp_failure_fallback_witness :
    ServerJs.convert exEnv { authorization := exAuth, body := [1, 2, 3] }
        (Except.ok []) (Except.error { message := ("bad input") }) (Except.ok [7])
      = { status := 500, body := .text (errText { message := ("bad input") }) } :=
  (sharp_failure_fallback exEnv { authorization := exAuth, body := [1, 2, 3] }
      (Except.ok []) (Except.ok [7]) { message := ("bad input") }
      (by decide) (by decide) (by decide)).2 (by decide)

/-- Counterexample for C4: a buffer carrying an ftyp box with the `heic`
brand, sent with content-type `application/pdf`, is routed to the PDF
path, not processed as HEIC — the declared content-type takes precedence
over the binary signature. -/
theorem heic_overrides_pdf_counterexample :
    looksLikeHeic heicBuf = true
    ∧ ServerJs.convertPath exEnv
        { contentType := some ("application/pdf"), authorization := exAuth,
          body := heicBuf } true = ConvPath.pdf
    ∧ ConvPath.pdf ≠ ConvPath.wasm := by decide

/-- C4 (amended): a `/convert` request whose body carries an ftyp box
with a HEIC brand is classified and processed as HEIC for every declared
content-type and filename that does not make it a PDF request; when the
sharp fast path throws, it is routed to the WASM HEIF decoder and the
response is the one the WASM decode determines. -/
theorem heic_classified_when_not_pdf (env : Env) (r : Req)
    (hauth : authOk env r = true) (hbody : r.body ≠ [])
    (hpdf : isPdfRequest r = false) (hheic : looksLikeHeic r.body = true) :
    ServerJs.convertPath env r true = ConvPath.wasm
    ∧ (∀ pdfRes sharpErr jpeg,
        ServerJs.convert env r pdfRes (Except.error sharpErr) (Except.ok jpeg)
          = { status := 200, body := .jpeg jpeg }) := by
  constructor
  · simp [ServerJs.convertPath, hauth, hbody, hpdf, hheic]
  · intro pdfRes sharpErr jpeg
    simp [ServerJs.convert, hauth, hbody, hpdf, hheic]

/-- Witness for C4 (amended) at the concrete HEIC buffer with no
content-type at all. -/
theorem heic_classified_when_not_pdf_witness :
    ServerJs.convertPath exEnv { authorization := exAuth, body := heicBuf } true
      = ConvPath.wasm :=
  (heic_classified_when_not_pdf exEnv { authorization := exAuth, body := heicBuf }
    (by decide) (by decide) (by decide) (by decide)).1

theorem clampInt_none {v : Option String} {lo hi fb : Int} (h : jsNum v = none) :
    clampInt v lo hi fb = fb := by
  simp [clampInt, h]

theorem clampInt_some {v : Option String} {lo hi fb n : Int} (h : jsNum v = some n) :
    clampInt v lo hi fb = max lo (min hi n) := by
  simp [clampInt, h]

/-- Counterexample for C3: an out-of-range header value does not fall
back to the field's default — it is clamped to the nearest bound.
`x-pdf-dpi: 10000` parses to 600 (the upper bound), not the default 300;
`x-width: 50000` parses to 20000, not the default "none". -/
theorem option_parsing_counterexample :
    (parsePdfLimits { xPdfDpi := some ("10000") }).1 = 600
    ∧ (600 : Int) ≠ 300
    ∧ (parseResizeOptions { xWidth := some ("50000") }).width = some 20000
    ∧ some (20000 : Int) ≠ none := by decide

/-- C3 (amended): option parsing never raises (it is a total function);
a non-numeric header value yields the field's default for each of
quality, width, height, maxDimension, pdfDpi and pdfMaxPages; an
out-of-range numeric value is silently clamped to the nearest bound of
the field's range — above the maximum to the maximum, below the minimum
to the minimum — never the default. -/
theorem option_parsing_clamps (r : Req) :
    ((jsNum r.xJpegQuality = none → (parseResizeOptions r).quality = 100)
      ∧ (jsNum r.xWidth = none → (parseResizeOptions r).width = none)
      ∧ (jsNum r.xHeight = none → (parseResizeOptions r).height = none)
      ∧ (jsNum r.xMaxDimension = none → (parseResizeOptions r).maxDim = none)
      ∧ (jsNum r.xPdfDpi = none → (parsePdfLimits r).1 = 300)
      ∧ (jsNum r.xPdfMaxPages = none → (parsePdfLimits r).2 = 50))
    ∧ ((∀ n, jsNum r.xJpegQuality = some n → 100 < n → (parseResizeOptions r).quality = 100)
      ∧ (∀ n, jsNum r.xWidth = some n → 20000 < n → (parseResizeOptions r).width = some 20000)
      ∧ (∀ n, jsNum r.xHeight = some n → 20000 < n → (parseResizeOptions r).height = some 20000)
      ∧ (∀ n, jsNum r.xMaxDimension = some n → 20000 < n →
            (parseResizeOptions r).maxDim = some 20000)
      ∧ (∀ n, jsNum r.xPdfDpi = some n → 600 < n → (parsePdfLimits r).1 = 600)
      ∧ (∀ n, jsNum r.xPdfMaxPages = some n → 200 < n → (parsePdfLimits r).2 = 200))
    ∧ ((∀ n, jsNum r.xJpegQuality = some n → n < 0 → (parseResizeOptions r).quality = 0)
      ∧ (∀ n, jsNum r.xWidth = some n → n < 1 → (parseResizeOptions r).width = some 1)
      ∧ (∀ n, jsNum r.xHeight = some n → n < 1 → (parseResizeOptions r).height = some 1)
      ∧ (∀ n, jsNum r.xMaxDimension = some n → n < 1 → (parseResizeOptions r).maxDim = some 1)
      ∧ (∀ n, jsNum r.xPdfDpi = some n → n < 72 → (parsePdfLimits r).1 = 72)
      ∧ (∀ n, jsNum r.xPdfMaxPages = some n → n < 1 → (parsePdfLimits r).2 = 1)) := by
  refine ⟨⟨?_, ?_, ?_, ?_, ?_, ?_⟩, ⟨?_, ?_, ?_, ?_, ?_, ?_⟩, ⟨?_, ?_, ?_, ?_, ?_, ?_⟩⟩
  · intro h; simp [parseResizeOptions, clampInt_none h]
  · intro h; simp [parseResizeOptions, clampInt_none h, orNull]
  · intro h; simp [parseResizeOptions, clampInt_none h, orNull]
  · intro h; simp [parseResizeOptions, clampInt_none h, orNull]
  · intro h; simp [parsePdfLimits, clampInt_none h]
  · intro h; simp [parsePdfLimits, clampInt_none h]
  · intro n h hn
    have hv : max 0 (min 100 n) = 100 := by omega
    simp [parseResizeOptions, clampInt_some h, hv]
  · intro n h hn
    have hv : max 1 (min 20000 n) = 20000 := by omega
    simp [parseResizeOptions, clampInt_some h, hv, orNull]
  · intro n h hn
    have hv : max 1 (min 20000 n) = 20000 := by omega
    simp [parseResizeOptions, clampInt_some h, hv, orNull]
  · intro n h hn
    have hv : max 1 (min 20000 n) = 20000 := by omega
    simp [parseResizeOptions, clampInt_some h, hv, orNull]
  · intro n h hn
    have hv : max 72 (min 600 n) = 600 := by omega
    simp [parsePdfLimits, clampInt_some h, hv]
  · intro n h hn
    have hv : max 1 (min 200 n) = 200 := by omega
    simp [parsePdfLimits, clampInt_some h, hv]
  · intro n h hn
    have hv : max 0 (min 100 n) = 0 := by omega
    simp [parseResizeOptions, clampInt_some h, hv]
  · intro n h hn
    have hv : max 1 (min 20000 n) = 1 := by omega
    simp [parseResizeOptions, clampInt_some h, hv, orNull]
  · intro n h hn
    have hv : max 1 (min 20000 n) = 1 := by omega
    simp [parseResizeOptions, clampInt_some h, hv, orNull]
  · intro n h hn
    have hv : max 1 (min 20000 n) = 1 := by omega
    simp [parseResizeOptions, clampInt_some h, hv, orNull]
  · intro n h hn
    have hv : max 72 (min 600 n) = 72 := by omega
    simp [parsePdfLimits, clampInt_some h, hv]
  · intro n h hn
    have hv : max 1 (min 200 n) = 1 := by omega
    simp [parsePdfLimits, clampInt_some h, hv]

/-- Witness for C3 (amended): a non-numeric quality header gives the
default 100; the decimal header `x-pdf-dpi: 10000.5` is floored and
clamped to the upper bound 600 (not the default 300); a negative width
is clamped to the lower bound 1. -/
theorem option_parsing_clamps_witness :
    (parseResizeOptions { xJpegQuality := some ("top") }).quality = 100
    ∧ (parsePdfLimits { xPdfDpi := some ("10000.5") }).1 = 600
    ∧ (parseResizeOptions { xWidth := some ("-5") }).width = some 1 :=
  ⟨(option_parsing_clamps { xJpegQuality := some ("top") }).1.1 (by decide),
   (option_parsing_clamps { xPdfDpi := some ("10000.5") }).2.1.2.2.2.2.1
     10000 (by decide) (by decide),
   (option_parsing_clamps { xWidth := some ("-5") }).2.2.2.1
     (-5) (by decide) (by decide)⟩

/-- A concrete sharp decode failure carrying a stack trace, as thrown for
an undecodable three-byte body. -/
def sharpFailEx : JsError :=
  { message := ("Input buffer contains unsupported image format")
    stack := some ("Error: Input buffer contains unsupported image format\n    at Sharp.toBuffer (/app/node_modules/sharp/lib/output.js:163:17)") }

/-- C2 exhibit (code bug): in src/server.js the `/convert` catch handler
(lines 242–245) sends `String(e?.stack || e)` as the response body, so a
failed request receives the internal exception's full stack trace — in
contradiction with the repository README's design goal "No stack traces
leaked to clients" and with the hardened iteration, whose catch handler
(src/unnamed/part_000 lines 363–373) sends only the taxonomy envelope. -/
theorem stack_trace_leak_eval :
    (ServerJs.convert exEnv { authorization := exAuth, body := [1, 2, 3] }
        (Except.ok []) (Except.error sharpFailEx) (Except.ok [])).body
      = RespBody.text ((sharpFailEx.stack).getD ("")) := by decide

/-- C5: when the rendered page files exceed the clamped
`x-pdf-max-pages` bound, `/convert/pdf` answers 413 with error code
`pdf_too_many_pages`, the page loop never runs (no page is re-encoded
through the raster normalizer: the event trace is empty), and no archive
bytes are written (the body is the JSON envelope, not a ZIP stream). -/
theorem pdf_too_many_pages (env : Env) (r : Req) (reqId : String)
    (rendered : List String) (abort : Nat → Bool)
    (hauth : authOk env r = true) (h0 : abort 0 = false) (hbody : r.body ≠ [])
    (hpdf : isPdfRequest r = true) (h1 : abort 1 = false)
    (hne : (sortPages rendered).isEmpty = false)
    (hover : (parsePdfLimits r).2 < ((sortPages rendered).length : Int)) :
    Hardened.convertPdf env r reqId rendered abort
      = { response :=
            { status := 413,
              body := .json ⟨("pdf_too_many_pages"),
                ("PDF has ") ++ toString (sortPages rendered).length
                  ++ (" pages; exceeds maxPages=") ++ toString (parsePdfLimits r).2,
                reqId⟩ },
          events := [],
          finalized := false,
          cleanedUp := true } := by
  simp [Hardened.convertPdf, hauth, h0, hbody, hpdf, h1, hne, hover]

/-- Witness for C5: three rendered pages against `x-pdf-max-pages: 2`. -/
theorem pdf_too_many_pages_witness :
    Hardened.convertPdf exEnv
        { contentType := some ("application/pdf"), authorization := exAuth,
          xPdfMaxPages := some ("2"), body := [1] }
        ("r1") [("page-1.jpg"), ("page-2.jpg"), ("page-3.jpg")] (fun _ => false)
      = { response :=
            { status := 413,
              body := .json ⟨("pdf_too_many_pages"),
                ("PDF has 3 pages; exceeds maxPages=2"), ("r1")⟩ },
          events := [],
          finalized := false,
          cleanedUp := true } := by
  have h := pdf_too_many_pages exEnv
    { contentType := some ("application/pdf"), authorization := exAuth,
      xPdfMaxPages := some ("2"), body := [1] }
    ("r1") [("page-1.jpg"), ("page-2.jpg"), ("page-3.jpg")] (fun _ => false)
    (by decide) (by decide) (by decide) (by decide) (by decide) (by decide) (by decide)
  rw [h]
  decide

theorem pageLoop_stops_at_abort (abort : Nat → Bool) (files : List String) :
    ∀ (k c : Nat) (pre post : List PageEvent) (i : Nat),
      (pageLoop abort files k c).1 = pre ++ PageEvent.checkAbort i true :: post →
        post = [] := by
  induction files with
  | nil =>
    intro k c pre post i h
    simp [pageLoop] at h
  | cons f fs ih =>
    intro k c pre post i h
    rw [pageLoop] at h
    by_cases h0 : abort c
    · rw [if_pos h0] at h
      rcases pre with _ | ⟨a, pre'⟩ <;> simp_all
    · rw [if_neg h0] at h
      by_cases h1 : abort (c + 1)
      · rw [if_pos h1] at h
        rcases pre with _ | ⟨a, _ | ⟨b, _ | ⟨d, pre'⟩⟩⟩ <;> simp_all
      · rw [if_neg h1] at h
        simp only at h
        rcases pre with _ | ⟨a, _ | ⟨b, _ | ⟨d, _ | ⟨e2, pre'⟩⟩⟩⟩
        · simp at h
        · simp at h
        · simp at h
        · simp at h
        · simp only [List.cons_append, List.cons.injEq] at h
          exact ih (k + 1) (c + 2) pre' post i h.2.2.2.2

theorem convertPdf_cleanup (env : Env) (r : Req) (reqId : String)
    (rendered : List String) (abort : Nat → Bool) :
    (Hardened.convertPdf env r reqId rendered abort).cleanedUp = true := by
  unfold Hardened.convertPdf
  dsimp only
  repeat' split <;> try rfl

/-- C6: once an `isAborted` poll observes the client abort, the
`/convert/pdf` page loop performs no further work at all — a positive
abort check is the final event of the loop trace, so no page file is
read or re-encoded after it — and the `finally` cleanup (removing the
request's PDF file and pages directory) runs on every exit path of the
handler. -/
theorem abort_stops_work_and_cleans_up :
    (∀ (abort : Nat → Bool) (files : List String) (k c : Nat)
        (pre post : List PageEvent) (i : Nat),
      (pageLoop abort files k c).1 = pre ++ PageEvent.checkAbort i true :: post →
        post = [])
    ∧ (∀ (env : Env) (r : Req) (reqId : String) (rendered : List String)
        (abort : Nat → Bool),
        (Hardened.convertPdf env r reqId rendered abort).cleanedUp = true) :=
  ⟨pageLoop_stops_at_abort, convertPdf_cleanup⟩

/-- Witness for C6: a two-page request whose abort becomes visible at the
third poll — the loop trace ends exactly at that positive check, and the
handler still reports cleanup. -/
theorem abort_stops_work_witness :
    (([] : List PageEvent) = [])
    ∧ (Hardened.convertPdf exEnv
        { contentType := some ("application/pdf"), authorization := exAuth, body := [1] }
        ("r1") [("page-1.jpg"), ("page-2.jpg")] (fun c => decide (2 ≤ c))).cleanedUp = true :=
  ⟨abort_stops_work_and_cleans_up.1 (fun c => decide (2 ≤ c))
      [("page-1.jpg"), ("page-2.jpg")] 1 0
      [PageEvent.checkAbort 0 false, PageEvent.readEncode ("page-1.jpg"),
        PageEvent.checkAbort 1 false, PageEvent.appendEntry ("001.jpg")]
      [] 2 (by decide),
   abort_stops_work_and_cleans_up.2 exEnv
      { contentType := some ("application/pdf"), authorization := exAuth, body := [1] }
      ("r1") [("page-1.jpg"), ("page-2.jpg")] (fun c => decide (2 ≤ c))⟩

theorem pageLoop_noAbort (files : List String) :
    ∀ (k c : Nat),
      encodedOf (pageLoop (fun _ => false) files k c).1 = files
      ∧ entriesOf (pageLoop (fun _ => false) files k c).1
          = (List.range files.length).map (fun i => entryName (k + i)) := by
  induction files with
  | nil => intro k c; simp [pageLoop, encodedOf, entriesOf]
  | cons f fs ih =>
    intro k c
    have h := ih (k + 1) (c + 2)
    refine ⟨?_, ?_⟩
    · simp [pageLoop, encodedOf, h.1]
      simpa [encodedOf] using (ih (k + 1) (c + 2)).1
    · have h2 := h.2
      simp only [entriesOf] at h2
      simp [pageLoop, entriesOf, h2, List.range_succ_eq_map, List.map_map, Function.comp]
      intro a _
      congr 1
      omega

def chainLt : List String → Bool
  | [] => true
  | [_] => true
  | a :: b :: rest => strLt a b && chainLt (b :: rest)

theorem chainLt_chain' : ∀ (l : List String), chainLt l = true → List.Chain' strLtP l
  | [], _ => List.chain'_nil
  | [_], _ => List.chain'_singleton _
  | a :: b :: rest, h => by
    simp only [chainLt, Bool.and_eq_true] at h
    exact List.chain'_cons.mpr ⟨h.1, chainLt_chain' (b :: rest) h.2⟩

theorem entryName_chain :
    List.Chain' strLtP ((List.range 200).map (fun i => entryName (i + 1))) :=
  chainLt_chain' _ (by decide)

theorem entryName_pairwise {n : Nat} (hn : n ≤ 200) :
    ((List.range n).map (fun i => entryName (i + 1))).Pairwise strLtP :=
  List.Pairwise.sublist ((List.range_sublist.mpr hn).map _)
    (List.chain'_iff_pairwise.mp entryName_chain)

theorem maxPages_le_200 (r : Req) : (parsePdfLimits r).2 ≤ 200 := by
  simp only [parsePdfLimits, clampInt]
  cases jsNum r.xPdfMaxPages <;> simp

theorem sortPages_sorted (names : List String) :
    (sortPages names).Pairwise pageLe :=
  List.sorted_insertionSort pageLe _

theorem sortPages_strict (names : List String)
    (hnodup : ((names.filter matchesPagePattern).map pageNum).Nodup) :
    (sortPages names).Pairwise (fun a b => pageNum a < pageNum b) := by
  have hperm : List.Perm (sortPages names) (names.filter matchesPagePattern) :=
    List.perm_insertionSort pageLe _
  have hnodup' : ((sortPages names).map pageNum).Nodup :=
    ((hperm.map pageNum).nodup_iff).mpr hnodup
  have hne : (sortPages names).Pairwise (fun a b => pageNum a ≠ pageNum b) :=
    (List.pairwise_map).mp hnodup'
  exact ((sortPages_sorted names).and hne).imp fun h => lt_of_le_of_ne h.1 h.2

/-- C7: on the successful `/convert/pdf` path, rendered page files are
ordered strictly by the numeric page number embedded in the filename
(`page-2` before `page-10`), every page is re-encoded in that order, the
k-th page (1-based) is stored in the archive under the 3-digit
zero-padded name of k (`001.jpg`, `002.jpg`, ...), and the archive entry
names are strictly increasing in lexicographic order, so lexical order
equals page order. -/
theorem archive_entry_ordering (env : Env) (r : Req) (reqId : String)
    (rendered : List String)
    (hauth : authOk env r = true) (hbody : r.body ≠ [])
    (hpdf : isPdfRequest r = true)
    (hne : (sortPages rendered).isEmpty = false)
    (hcap : ((sortPages rendered).length : Int) ≤ (parsePdfLimits r).2)
    (hnodup : ((rendered.filter matchesPagePattern).map pageNum).Nodup) :
    (sortPages rendered).Pairwise (fun a b => pageNum a < pageNum b)
    ∧ (Hardened.convertPdf env r reqId rendered (fun _ => false)).response
        = { status := 200, body := .zipStream }
    ∧ encodedOf (Hardened.convertPdf env r reqId rendered (fun _ => false)).events
        = sortPages rendered
    ∧ entriesOf (Hardened.convertPdf env r reqId rendered (fun _ => false)).events
        = (List.range (sortPages rendered).length).map (fun i => entryName (i + 1))
    ∧ (∀ k, k < (sortPages rendered).length →
        (entriesOf (Hardened.convertPdf env r reqId rendered (fun _ => false)).events)[k]?
          = some (entryName (k + 1)))
    ∧ (entriesOf (Hardened.convertPdf env r reqId rendered (fun _ => false)).events).Pairwise
        strLtP := by
  have hcap' : ¬ ((parsePdfLimits r).2 < ((sortPages rendered).length : Int)) :=
    not_lt.mpr hcap
  have hrun : Hardened.convertPdf env r reqId rendered (fun _ => false)
      = { response := { status := 200, body := .zipStream },
          events := (pageLoop (fun _ => false) (sortPages rendered) 1 2).1,
          finalized := true,
          cleanedUp := true } := by
    simp [Hardened.convertPdf, hauth, hbody, hpdf, hne, hcap']
  have hloop := pageLoop_noAbort (sortPages rendered) 1 2
  have hentries : entriesOf (pageLoop (fun _ => false) (sortPages rendered) 1 2).1
      = (List.range (sortPages rendered).length).map (fun i => entryName (i + 1)) := by
    rw [hloop.2]
    exact List.map_congr_left fun a _ => by rw [Nat.add_comm]
  have hlen : (sortPages rendered).length ≤ 200 := by
    have h200 := maxPages_le_200 r
    omega
  refine ⟨sortPages_strict rendered hnodup, ?_, ?_, ?_, ?_, ?_⟩
  · rw [hrun]
  · rw [hrun]; exact hloop.1
  · rw [hrun]; exact hentries
  · intro k hk
    rw [hrun, hentries]
    rw [List.getElem?_map, List.getElem?_range hk]
    rfl
  · rw [hrun, hentries]
    exact entryName_pairwise hlen

/-- A directory listing of 12 rendered pages, deliberately out of lexical
order. -/
def pagesEx : List String :=
  [("page-10.jpg"), ("page-2.jpg"), ("page-1.jpg"), ("page-12.jpg"), ("page-3.jpg"),
   ("page-4.jpg"), ("page-11.jpg"), ("page-5.jpg"), ("page-6.jpg"), ("page-7.jpg"),
   ("page-8.jpg"), ("page-9.jpg")]

/-- A well-formed PDF request used by the witnesses. -/
def pdfReqEx : Req :=
  { contentType := some ("application/pdf"), authorization := exAuth, body := [1] }

/-- Witness for C7 at a 12-page document (page-2 must precede page-10,
so the ordering is numeric, not lexical). -/
theorem archive_entry_ordering_witness :
    (sortPages pagesEx).Pairwise (fun a b => pageNum a < pageNum b)
    ∧ entriesOf (Hardened.convertPdf exEnv pdfReqEx ("r1") pagesEx (fun _ => false)).events
        = (List.range (sortPages pagesEx).length).map (fun i => entryName (i + 1)) :=
  ⟨(archive_entry_ordering exEnv pdfReqEx ("r1") pagesEx
      (by decide) (by decide) (by decide) (by decide) (by decide) (by decide)).1,
   (archive_entry_ordering exEnv pdfReqEx ("r1") pagesEx
      (by decide) (by decide) (by decide) (by decide) (by decide) (by decide)).2.2.2.1⟩
